import Mathlib

/-!
Verification of the LaundryIQ current-sensing data logger
(`laundryiq_logger.py`) against its natural-language specification.

The development shallowly embeds the core pipeline of the source file:
the streaming `DataParser`, the BLE worker's scan-sorting and
connect/teardown logic, and the `LaundryIQLogger` sampling pipeline
(pending-value merge, calibration, bounded history, state tracking).
Machine floats of the source are modelled as exact rationals (`ℚ`);
byte strings are modelled as lists of byte values (`List Nat`) and
decoded text as `List Char`.
-/

namespace LIQ

/-! ## Character classes used by the parser

The source searches each complete line with the Python regular
expressions `TAG[:\s=]+([\d.+-]+)` (see `DataParser.PATTERNS`,
laundryiq_logger.py lines 196-200).  These run in str (Unicode) mode:
`\s` matches the Unicode whitespace set and `\d` the Unicode decimal
digits (category Nd).  Both sets are embedded exactly, as code-point
tables taken from CPython 3.11 (Unicode 14). -/

/-- The code points matched by the str-pattern `\s` of Python `re`.
`str.strip()` strips exactly the same set. -/
def spaceCodes : List Nat :=
  [9, 10, 11, 12, 13, 28, 29, 30, 31, 32, 133, 160, 5760,
   8192, 8193, 8194, 8195, 8196, 8197, 8198, 8199, 8200, 8201, 8202,
   8232, 8233, 8239, 8287, 12288]

/-- Whitespace, as matched by `\s` and stripped by `str.strip()`. -/
def isSpaceChar (c : Char) : Bool :=
  decide (c.toNat ∈ spaceCodes)

/-- The separator class `[:\s=]` of the token patterns: colon (58),
equals (61) or whitespace. -/
def isSepChar (c : Char) : Bool :=
  c.toNat = 58 || c.toNat = 61 || isSpaceChar c

/-- The zero digit of each run of ten consecutive Unicode decimal
digits (category Nd): `\d` matches exactly the code points
`z ≤ n ≤ z + 9` for a base `z` in this table, and such a digit has
numeric value `n - z`. -/
def digitZeroCodes : List Nat :=
  [48, 1632, 1776, 1984, 2406, 2534, 2662, 2790, 2918, 3046, 3174, 3302,
   3430, 3558, 3664, 3792, 3872, 4160, 4240, 6112, 6160, 6470, 6608, 6784,
   6800, 6992, 7088, 7232, 7248, 42528, 43216, 43264, 43472, 43504, 43600,
   44016, 65296, 66720, 68912, 69734, 69872, 69942, 70096, 70384, 70736,
   70864, 71248, 71360, 71472, 71904, 72016, 72784, 73040, 73120, 92768,
   92864, 93008, 120782, 120792, 120802, 120812, 120822, 123200, 123632,
   125264, 130032]

/-- The base (zero digit) of the decimal-digit run containing `n`,
when `n` is a Unicode decimal digit. -/
def digitBase? (n : Nat) : Option Nat :=
  digitZeroCodes.find? (fun z => decide (z ≤ n ∧ n ≤ z + 9))

/-- A Unicode decimal digit, as matched by `\d`. -/
def isDigitChar (c : Char) : Bool :=
  (digitBase? c.toNat).isSome

/-- The numeric value of a decimal digit (`0` on non-digits, where it
is never used): Python `float` converts any Unicode decimal digit by
this value. -/
def digitVal (c : Char) : Nat :=
  match digitBase? c.toNat with
  | some z => c.toNat - z
  | none => 0

/-- The number class `[\d.+-]`: decimal digit, dot (46), plus (43),
minus (45). -/
def isNumChar (c : Char) : Bool :=
  isDigitChar c || c.toNat = 46 || c.toNat = 43 || c.toNat = 45

/-! ## Decoding and line splitting

`DataParser.parse` begins with `data.decode("utf-8", errors="replace")`
(line 207), decoding each call's chunk independently. -/

/-- A UTF-8 continuation byte `0x80..0xBF`. -/
def contByte (b : Nat) : Bool := decide (128 ≤ b ∧ b ≤ 191)

/-- Valid second byte after a three-byte lead, excluding overlong and
surrogate encodings: `E0` requires `A0..BF`, `ED` requires `80..9F`,
the other leads `80..BF`. -/
def snd3Ok (b1 b2 : Nat) : Bool :=
  if b1 = 224 then decide (160 ≤ b2 ∧ b2 ≤ 191)
  else if b1 = 237 then decide (128 ≤ b2 ∧ b2 ≤ 159)
  else contByte b2

/-- Valid second byte after a four-byte lead, excluding overlong and
beyond-U+10FFFF encodings: `F0` requires `90..BF`, `F4` requires
`80..8F`, the other leads `80..BF`. -/
def snd4Ok (b1 b2 : Nat) : Bool :=
  if b1 = 240 then decide (144 ≤ b2 ∧ b2 ≤ 191)
  else if b1 = 244 then decide (128 ≤ b2 ∧ b2 ≤ 143)
  else contByte b2

/-- The replacement character U+FFFD. -/
def replChar : Char := Char.ofNat 0xFFFD

/-- `bytes.decode("utf-8", errors="replace")`: standard UTF-8 decoding
where each maximal subpart of an ill-formed or truncated sequence is
replaced by one U+FFFD, exactly as CPython substitutes (the algorithm
was validated against CPython on every one- and two-byte input and a
large battery of longer sequences).  A lone trailing byte is its ASCII
character when below 128 and otherwise — truncated lead or invalid
byte alike — a single U+FFFD. -/
def decodeReplace : List Nat → List Char
  | [] => []
  | [b1] => if b1 < 128 then [Char.ofNat b1] else [replChar]
  | b1 :: b2 :: rest =>
    if b1 < 128 then Char.ofNat b1 :: decodeReplace (b2 :: rest)
    else if 194 ≤ b1 ∧ b1 ≤ 223 then
      if contByte b2 then
        Char.ofNat ((b1 - 192) * 64 + (b2 - 128)) :: decodeReplace rest
      else replChar :: decodeReplace (b2 :: rest)
    else if 224 ≤ b1 ∧ b1 ≤ 239 then
      if snd3Ok b1 b2 then
        match rest with
        | [] => [replChar]
        | b3 :: rest3 =>
          if contByte b3 then
            Char.ofNat ((b1 - 224) * 4096 + (b2 - 128) * 64 + (b3 - 128)) ::
              decodeReplace rest3
          else replChar :: decodeReplace (b3 :: rest3)
      else replChar :: decodeReplace (b2 :: rest)
    else if 240 ≤ b1 ∧ b1 ≤ 244 then
      if snd4Ok b1 b2 then
        match rest with
        | [] => [replChar]
        | b3 :: rest3 =>
          if contByte b3 then
            match rest3 with
            | [] => [replChar]
            | b4 :: rest4 =>
              if contByte b4 then
                Char.ofNat ((b1 - 240) * 262144 + (b2 - 128) * 4096 +
                    (b3 - 128) * 64 + (b4 - 128)) :: decodeReplace rest4
              else replChar :: decodeReplace (b4 :: rest4)
          else replChar :: decodeReplace (b3 :: rest3)
      else replChar :: decodeReplace (b2 :: rest)
    else replChar :: decodeReplace (b2 :: rest)

/-- Prepend a character to the first complete line of a split result,
or to the fragment when no complete line exists. -/
def consLine (c : Char) : List (List Char) × List Char → List (List Char) × List Char
  | ([], r) => ([], c :: r)
  | (l :: ls, r) => ((c :: l) :: ls, r)

/-- Model of `self._buffer.split("\n")` followed by
`self._buffer = lines[-1]` (lines 211-212): returns the complete lines
(the segments before each newline) and the trailing fragment that is
kept as the new buffer. -/
def splitNL : List Char → List (List Char) × List Char
  | [] => ([], [])
  | c :: cs =>
    if c = '\n' then ([] :: (splitNL cs).1, (splitNL cs).2)
    else consLine c (splitNL cs)

/-- `str.strip()`: drop leading and trailing whitespace (line 215). -/
def stripChars (s : List Char) : List Char :=
  ((s.dropWhile isSpaceChar).reverse.dropWhile isSpaceChar).reverse

/-! ## Numeric conversion

`float(match.group(1))` (line 223).  The group is drawn from the class
`[\d.+-]`, so the only accepted strings are an optional sign followed
by digits with at most one decimal point (Python raises `ValueError`
otherwise, which the source catches and ignores).  Values are modelled
as exact rationals. -/

/-- Value of a digit string (most significant first), each digit
contributing its Unicode numeric value — `float` converts any decimal
digit, not only ASCII ones. -/
def natOfDigits (l : List Char) : Nat :=
  l.foldl (fun a c => 10 * a + digitVal c) 0

/-- Parse an unsigned decimal: `d+`, `d+.d*` or `.d+` (as accepted by
Python `float` over the alphabet `[\d.]`); anything else is `none`.
The exact rational value of `ip.fp` is
`(ip * 10^|fp| + fp) / 10^|fp|`, built with `mkRat` so that it
evaluates by kernel reduction. -/
def parseUnsignedDecimal (s : List Char) : Option ℚ :=
  match s.splitOn '.' with
  | [ip] => if ip ≠ [] ∧ ip.all isDigitChar then some (mkRat (natOfDigits ip) 1) else none
  | [ip, fp] =>
    if (ip ≠ [] ∨ fp ≠ []) ∧ ip.all isDigitChar ∧ fp.all isDigitChar then
      some (mkRat (natOfDigits ip * 10 ^ fp.length + natOfDigits fp) (10 ^ fp.length))
    else none
  | _ => none

/-- Parse a signed decimal as Python `float` does on the matched group:
an optional leading `+` or `-` followed by an unsigned decimal. -/
def parseDecimal (s : List Char) : Option ℚ :=
  match s with
  | c :: rest =>
    if c = '+' then parseUnsignedDecimal rest
    else if c = '-' then Option.map Neg.neg (parseUnsignedDecimal rest)
    else parseUnsignedDecimal s
  | [] => none

/-! ## The token regular expressions

`re.search(r"TAG[:\s=]+([\d.+-]+)", line)`.  Because the separator and
number classes are disjoint (`numChar_not_sepChar`), the regex engine's
greedy matching with backtracking reduces to: at the leftmost position
where the literal tag is followed by at least one separator character,
take the maximal separator run and then a maximal nonempty number-class
run, which is the captured group. -/

/-- Try to match `TAG[:\s=]+([\d.+-]+)` at the start of `s`, returning
the captured group. -/
def matchAt (tag : List Char) (s : List Char) : Option (List Char) :=
  if tag.isPrefixOf s then
    if (s.drop tag.length).takeWhile isSepChar = [] then none
    else if ((s.drop tag.length).dropWhile isSepChar).takeWhile isNumChar = [] then none
    else some (((s.drop tag.length).dropWhile isSepChar).takeWhile isNumChar)
  else none

/-- `re.search`: scan left to right for the first position where the
pattern matches, returning the captured group. -/
def searchTag (tag : List Char) : List Char → Option (List Char)
  | [] => matchAt tag []
  | c :: cs =>
    match matchAt tag (c :: cs) with
    | some g => some g
    | none => searchTag tag cs

/-! ## The parser -/

/-- The three sensor channels (keys of `DataParser.PATTERNS`,
`pending_data` and `calibration_factors`). -/
inductive Channel where
  | ct_clamp
  | hall1
  | hall2
deriving DecidableEq, Repr

/-- The literal tag of each channel's pattern (lines 196-200). -/
def Channel.tag : Channel → List Char
  | .ct_clamp => "CT_A".toList
  | .hall1 => "HALL1_A".toList
  | .hall2 => "HALL2_A".toList

/-- A per-channel mapping to an optional value.  Used both for the
dict returned by `DataParser.parse` and for `self.pending_data`. -/
structure ChannelValues where
  ct_clamp : Option ℚ
  hall1 : Option ℚ
  hall2 : Option ℚ
deriving DecidableEq, Repr

/-- Look a channel up in a `ChannelValues`. -/
def ChannelValues.get (r : ChannelValues) : Channel → Option ℚ
  | .ct_clamp => r.ct_clamp
  | .hall1 => r.hall1
  | .hall2 => r.hall2

/-- The dict `{"ct_clamp": None, "hall1": None, "hall2": None}`. -/
def ChannelValues.empty : ChannelValues := ⟨none, none, none⟩

/-- Per-line, per-channel extraction: search the line for the channel's
pattern and convert the captured group with `float`; `none` when the
pattern does not match or the conversion raises (both are ignored by
the source, lines 219-225). -/
def extractValue (ch : Channel) (line : List Char) : Option ℚ :=
  match searchTag ch.tag line with
  | some g => parseDecimal g
  | none => none

/-- Process one complete line (the body of the `for line in lines[:-1]`
loop, lines 214-225): strip it, skip it when empty, then run the three
patterns in dict insertion order, overwriting the result value of each
channel whose extraction succeeds. -/
def processLine (r : ChannelValues) (rawLine : List Char) : ChannelValues :=
  let line := stripChars rawLine
  if line = [] then r
  else
    let r1 := match extractValue .ct_clamp line with
      | some v => { r with ct_clamp := some v }
      | none => r
    let r2 := match extractValue .hall1 line with
      | some v => { r1 with hall1 := some v }
      | none => r1
    match extractValue .hall2 line with
    | some v => { r2 with hall2 := some v }
    | none => r2

/-- The parser state: the partial-line buffer `self._buffer`. -/
structure DataParser where
  buffer : List Char
deriving DecidableEq, Repr

/-- The text-level core of `parse`: append already-decoded text to the
buffer, split off the complete lines keeping the trailing fragment as
the new buffer, and fold the line processor over the complete lines
starting from the all-`None` result dict. -/
def DataParser.parseText (p : DataParser) (text : List Char) : ChannelValues × DataParser :=
  let sp := splitNL (p.buffer ++ text)
  (sp.1.foldl processLine ChannelValues.empty, ⟨sp.2⟩)

/-- `DataParser.parse` (lines 205-227): decode this call's bytes with
replacement — each call decodes its own chunk — and run the
text-level core on the decoded text. -/
def DataParser.parse (p : DataParser) (data : List Nat) : ChannelValues × DataParser :=
  p.parseText (decodeReplace data)

/-- The (channel, value) pairs extracted from one complete line, in
pattern order — the extraction events of the line. -/
def lineExtractions (rawLine : List Char) : List (Channel × ℚ) :=
  let line := stripChars rawLine
  if line = [] then []
  else
    (match extractValue .ct_clamp line with
      | some v => [(Channel.ct_clamp, v)] | none => []) ++
    (match extractValue .hall1 line with
      | some v => [(Channel.hall1, v)] | none => []) ++
    (match extractValue .hall2 line with
      | some v => [(Channel.hall2, v)] | none => [])

/-- All extraction events of one `parseText` call, in processing
order. -/
def DataParser.parseEventsText (p : DataParser) (text : List Char) : List (Channel × ℚ) :=
  ((splitNL (p.buffer ++ text)).1.map lineExtractions).flatten

/-- All extraction events of one `parse` call, in processing order. -/
def DataParser.parseEvents (p : DataParser) (data : List Nat) : List (Channel × ℚ) :=
  p.parseEventsText (decodeReplace data)

/-! ## Multi-call feeding

The consumer feeds the parser one notification chunk at a time; these
definitions thread the parser state through a list of chunks. -/

/-- Parser state after feeding the chunks one call at a time. -/
def feedState : DataParser → List (List Nat) → DataParser
  | p, [] => p
  | p, d :: ds => feedState (p.parse d).2 ds

/-- Extraction events accumulated over feeding the chunks one call at
a time. -/
def feedEvents : DataParser → List (List Nat) → List (Channel × ℚ)
  | _, [] => []
  | p, d :: ds => p.parseEvents d ++ feedEvents (p.parse d).2 ds

/-- The `_poll_events` rx-branch merge (lines 903-906): for each key,
a non-`None` parsed value overwrites the pending value, a `None`
parsed value leaves it alone. -/
def merge_pending (pend parsed : ChannelValues) : ChannelValues :=
  let p1 := match parsed.ct_clamp with
    | some v => { pend with ct_clamp := some v }
    | none => pend
  let p2 := match parsed.hall1 with
    | some v => { p1 with hall1 := some v }
    | none => p1
  match parsed.hall2 with
  | some v => { p2 with hall2 := some v }
  | none => p2

/-- Pending data after feeding the chunks one call at a time, merging
each call's returned dict into the pending values. -/
def feedPending : ChannelValues → DataParser → List (List Nat) → ChannelValues
  | pend, _, [] => pend
  | pend, p, d :: ds => feedPending (merge_pending pend (p.parse d).1) (p.parse d).2 ds

/-- Text-level counterpart of `feedState`. -/
def feedStateText : DataParser → List (List Char) → DataParser
  | p, [] => p
  | p, t :: ts => feedStateText (p.parseText t).2 ts

/-- Text-level counterpart of `feedEvents`. -/
def feedEventsText : DataParser → List (List Char) → List (Channel × ℚ)
  | _, [] => []
  | p, t :: ts => p.parseEventsText t ++ feedEventsText (p.parseText t).2 ts

/-- Text-level counterpart of `feedPending`. -/
def feedPendingText : ChannelValues → DataParser → List (List Char) → ChannelValues
  | pend, _, [] => pend
  | pend, p, t :: ts =>
    feedPendingText (merge_pending pend (p.parseText t).1) (p.parseText t).2 ts

/-! ## BLE worker: scan result sorting

`BleWorker._scan_and_post` (lines 102-120) builds `FoundDevice` records
and sorts them with
`found.sort(key=lambda x: (x.name == "<unknown>", -(x.rssi or -999)))`
(line 117).  Python `list.sort` is a stable ascending sort by the key
tuple; a stable ascending sort is embedded as Mathlib's insertion
sort. -/

/-- `FoundDevice` (lines 43-47). -/
structure FoundDevice where
  name : String
  address : String
  rssi : Option Int
deriving DecidableEq, Repr

/-- `x.rssi or -999`: Python `or` takes the first truthy operand, so
`None` and the falsy value `0` both become the sentinel `-999`. -/
def rssiOr (r : Option Int) : Int :=
  match r with
  | none => -999
  | some v => if v = 0 then -999 else v

/-- The sort key tuple
`(x.name == "<unknown>", -(x.rssi or -999))`, with `False < True`
rendered as `0 < 1`. -/
def sortKey (d : FoundDevice) : Nat × Int :=
  ((if d.name = "<unknown>" then 1 else 0), -(rssiOr d.rssi))

/-- Ascending lexicographic comparison of the key tuples, as used by
`list.sort(key=...)`. -/
def keyLe (a b : FoundDevice) : Prop :=
  (sortKey a).1 < (sortKey b).1 ∨ ((sortKey a).1 = (sortKey b).1 ∧ (sortKey a).2 ≤ (sortKey b).2)

instance : DecidableRel keyLe := fun a b => by
  unfold keyLe
  infer_instance

instance : IsTotal FoundDevice keyLe :=
  ⟨fun a b => by unfold keyLe; omega⟩

instance : IsTrans FoundDevice keyLe :=
  ⟨fun a b c hab hbc => by unfold keyLe at *; omega⟩

/-- `found.sort(key=...)` (line 117): stable ascending sort by the key
tuple. -/
def scanSorted (found : List FoundDevice) : List FoundDevice :=
  found.insertionSort keyLe

/-! ## BLE worker: connect and teardown

`BleWorker._connect_and_post` (lines 122-169) and
`BleWorker._disconnect_silent` (lines 176-189).  The radio I/O is
abstracted by an environment of outcomes: whether `client.connect()`
succeeds, whether the services collection is available and contains the
NUS service, whether `start_notify` succeeds, and whether the teardown
calls `stop_notify`/`disconnect` raise.  All outward communication is
the list of events put on the queue. -/

/-- The NUS service identifier (line 38). -/
def NUS_SERVICE_UUID : String := "6e400001-b5a3-f393-e0a9-e50e24dcca9e"

/-- Events posted on the worker queue (scan_result and rx omitted:
they do not occur in the connect path). -/
inductive BleEvent where
  | status (msg : String)
  | connected (flag : Bool)
  | error (msg : String)
deriving DecidableEq, Repr

/-- Outcomes of the radio operations during one connect attempt. -/
structure BleEnv where
  connectOk : Bool
  servicesAvailable : Bool
  hasNusService : Bool
  subscribeOk : Bool
  stopNotifyRaises : Bool
  disconnectRaises : Bool
deriving DecidableEq, Repr

/-- The worker's link state: `self._client` (the address it was
connected to, when set). -/
structure BleState where
  client : Option String
deriving DecidableEq, Repr

/-- `await self._client.stop_notify(...)` as a fallible operation. -/
def tryStopNotify (env : BleEnv) : Except String Unit :=
  if env.stopNotifyRaises then Except.error "stop_notify raised" else Except.ok ()

/-- `await self._client.disconnect()` as a fallible operation. -/
def tryDisconnect (env : BleEnv) : Except String Unit :=
  if env.disconnectRaises then Except.error "disconnect raised" else Except.ok ()

/-- `BleWorker._disconnect_silent` (lines 176-189): a no-op when no
client is held; otherwise `stop_notify` inside its own
`try/except: pass`, then `disconnect` inside the outer
`try/except: pass`, and a `finally` that clears `self._client` —
every teardown error is swallowed and no event is emitted. -/
def BleWorker.disconnect_silent (env : BleEnv) (st : BleState) : BleState :=
  match st.client with
  | none => st
  | some _ =>
    let body : Except String Unit :=
      match tryStopNotify env with
      | Except.ok _ => tryDisconnect env
      | Except.error _ => tryDisconnect env
    match body with
    | Except.ok _ => ⟨none⟩
    | Except.error _ => ⟨none⟩

/-- The message of the subscribe-failure `RuntimeError`
(lines 158-160). -/
def subscribeFailMsg : String :=
  "Couldn" ++ (Char.ofNat 39).toString ++
    "t subscribe to NUS TX. Wrong device, or firmware not running NUS."

/-- The observable outcome of one `_connect_and_post` call: the events
put on the queue, the final `self._client`, and whether the freshly
created local `client` is left holding an open link that
`self._client` does not reference (a leaked connection). -/
structure ConnectOutcome where
  events : List BleEvent
  client : Option String
  newLinkOpen : Bool
deriving DecidableEq, Repr

/-- `BleWorker._connect_and_post` (lines 122-169).  First a silent
disconnect of any existing link; then a fresh local
`client = BleakClient(address)` and, in order: `client.connect()`
(raising `RuntimeError("connect() returned false")` when it fails),
the NUS-service check (performed only when a services collection is
available; raising `RuntimeError(f"Device missing NUS service …")`),
and `start_notify` (re-raised as the subscribe-failure message).  Only
after all three succeed is `self._client = client` assigned and
`status`/`connected True` emitted.  On any raise the except block
emits `error(f"Connect failed: {e}")`, calls `_disconnect_silent` —
which acts on `self._client`, still `None` at that point, and hence
does not touch the local `client` — and emits `connected False`; a
link already opened by the successful `client.connect()` therefore
stays open (`newLinkOpen := true`). -/
def BleWorker.connect_and_post (env : BleEnv) (st : BleState) (address : String) :
    ConnectOutcome :=
  let st0 := BleWorker.disconnect_silent env st
  if env.connectOk = false then
    { events := [BleEvent.error ("Connect failed: " ++ "connect() returned false"),
                 BleEvent.connected false],
      client := (BleWorker.disconnect_silent env st0).client,
      newLinkOpen := false }
  else if env.servicesAvailable = true ∧ env.hasNusService = false then
    { events := [BleEvent.error ("Connect failed: " ++ "Device missing NUS service " ++
                   NUS_SERVICE_UUID),
                 BleEvent.connected false],
      client := (BleWorker.disconnect_silent env st0).client,
      newLinkOpen := true }
  else if env.subscribeOk = false then
    { events := [BleEvent.error ("Connect failed: " ++ subscribeFailMsg),
                 BleEvent.connected false],
      client := (BleWorker.disconnect_silent env st0).client,
      newLinkOpen := true }
  else
    { events := [BleEvent.status ("Connected to " ++ address),
                 BleEvent.connected true],
      client := some address,
      newLinkOpen := false }

/-! ## The logger: samples, calibration, history, state tracking -/

/-- `DataSample` (lines 50-58). -/
structure DataSample where
  timestamp : ℚ
  ct_clamp : Option ℚ
  hall1 : Option ℚ
  hall2 : Option ℚ
  state : String
  elapsed_time : ℚ
deriving DecidableEq, Repr

/-- `StateChange` (lines 60-64). -/
structure StateChange where
  timestamp : ℚ
  state : String
  elapsed_time : ℚ
deriving DecidableEq, Repr

/-- `self.calibration_factors` (lines 260-264). -/
structure CalibrationFactors where
  ct_clamp : ℚ
  hall1 : ℚ
  hall2 : ℚ
deriving DecidableEq, Repr

/-- Appending to `collections.deque(maxlen=cap)`: append on the right,
keeping only the last `cap` entries (the oldest entry is evicted once
full).  `self.data_buffer = deque(maxlen=10000)` (line 246). -/
def dequeAppend (cap : Nat) (l : List DataSample) (a : DataSample) : List DataSample :=
  ((l ++ [a]).drop ((l ++ [a]).length - cap))

/-- The logger state touched by the sampling pipeline and the state
tracker (UI widgets, CSV plumbing and the worker handle are external
collaborators and not modelled). -/
structure LoggerState where
  pending_data : ChannelValues
  calibration_factors : CalibrationFactors
  data_buffer : List DataSample
  state_changes : List StateChange
  current_state : String
  logging_start_time : Option ℚ
  is_logging : Bool
  last_sample_time : ℚ
deriving DecidableEq, Repr

/-- `LaundryIQLogger._process_sample` (lines 985-1034): guard
`if not self.logging_start_time` (true for `None` and for the falsy
`0.0`), compute the elapsed time, multiply each present pending value
by its channel's current calibration factor, build the immutable
`DataSample` carrying the current state label, and append it to the
bounded history (CSV writing is the external sink). -/
def LaundryIQLogger.process_sample (st : LoggerState) (timestamp : ℚ) : LoggerState :=
  match st.logging_start_time with
  | none => st
  | some t0 =>
    if t0 = 0 then st
    else
      let sample : DataSample :=
        { timestamp := timestamp
          ct_clamp := Option.map (fun v => v * st.calibration_factors.ct_clamp)
            st.pending_data.ct_clamp
          hall1 := Option.map (fun v => v * st.calibration_factors.hall1)
            st.pending_data.hall1
          hall2 := Option.map (fun v => v * st.calibration_factors.hall2)
            st.pending_data.hall2
          state := st.current_state
          elapsed_time := timestamp - t0 }
      { st with data_buffer := dequeAppend 10000 st.data_buffer sample }

/-- `LaundryIQLogger._update_calibration` (lines 968-983): each factor
is re-read from its UI entry; a value that fails `float()` keeps the
previous factor (modelled as `none`). -/
def LaundryIQLogger.update_calibration (st : LoggerState) (ct h1 h2 : Option ℚ) :
    LoggerState :=
  { st with calibration_factors :=
    { ct_clamp := ct.getD st.calibration_factors.ct_clamp
      hall1 := h1.getD st.calibration_factors.hall1
      hall2 := h2.getD st.calibration_factors.hall2 } }

/-- `LaundryIQLogger._on_state_button` (lines 741-751): while not
logging, append the log line `"State change ignored: Not logging.\n"`
and return with nothing else changed; while logging, update
`current_state`, append a `StateChange` record and log the change
(the numeric `t=…s` suffix of that log line is elided).  Returns the
new state and the appended log lines. -/
def LaundryIQLogger.on_state_button (st : LoggerState) (now : ℚ) (s : String) :
    LoggerState × List String :=
  if st.is_logging = false then
    (st, ["State change ignored: Not logging.\n"])
  else
    let elapsed := now - (st.logging_start_time.getD 0)
    ({ st with current_state := s
               state_changes := st.state_changes ++ [⟨now, s, elapsed⟩] },
     ["State changed to: " ++ s])

/-! ## Concrete states and spec-side definitions used by the claims -/

/-- The two-chunk feed of the spec's end-to-end scenario. -/
def scenarioChunks : List (List Nat) :=
  ["CT_A:1.0\nHALL1_A:2.0\nHALL2".toList.map Char.toNat,
   "_A:3.0\n".toList.map Char.toNat]

/-- The byte sequence `CT_A \xc2\xa0 5 \n`: the tag, a no-break space
(U+00A0, a `\s` separator) encoded as the two UTF-8 bytes `C2 A0`,
the digit `5`, and a newline. -/
def nbspWhole : List Nat :=
  "CT_A".toList.map Char.toNat ++ [194, 160] ++ "5\n".toList.map Char.toNat

/-- The same bytes split between `C2` and `A0`, i.e. inside the
encoded separator character — a mid-line split that does not touch
the numeric token's digits. -/
def nbspChunks : List (List Nat) :=
  ["CT_A".toList.map Char.toNat ++ [194], [160] ++ "5\n".toList.map Char.toNat]

/-- Modelled from the claim's words (C3): the claimed output order —
named devices strictly before unnamed ones, and within a group the
signal strengths strictly descending, with a missing strength the
weakest of its group (`⊥`). -/
def claimScanRel (a b : FoundDevice) : Prop :=
  (sortKey a).1 < (sortKey b).1 ∨
    ((sortKey a).1 = (sortKey b).1 ∧
      (Option.map (fun r => (r : WithBot ℤ)) b.rssi).getD ⊥ <
        (Option.map (fun r => (r : WithBot ℤ)) a.rssi).getD ⊥)

instance : DecidableRel claimScanRel := fun a b => by
  unfold claimScanRel
  infer_instance

/-- A concrete idle logger state (no active logging session). -/
def idleState : LoggerState :=
  { pending_data := ⟨none, none, none⟩
    calibration_factors := ⟨1, 1, 1⟩
    data_buffer := []
    state_changes := []
    current_state := "Off"
    logging_start_time := none
    is_logging := false
    last_sample_time := 0 }

/-- A concrete logging state: CT factor `2.0`, pending CT raw value
`1.5`, session started at `t0 = 1`. -/
def logState : LoggerState :=
  { pending_data := ⟨some (3 / 2 : ℚ), none, none⟩
    calibration_factors := ⟨2, 1, 1⟩
    data_buffer := []
    state_changes := []
    current_state := "Wash"
    logging_start_time := some 1
    is_logging := true
    last_sample_time := 0 }

/-- A distinct sample for each index (timestamps increase). -/
def mkSample (i : Nat) : DataSample :=
  { timestamp := (i : ℚ), ct_clamp := none, hall1 := none, hall2 := none,
    state := "Off", elapsed_time := 0 }

/-- 10,001 pairwise-distinct samples, in emission order. -/
def manySamples : List DataSample :=
  (List.range 10001).map mkSample

/-! ## Supporting lemmas: character classes -/

/-- A character in the number class is never in the separator class:
the two regex character classes are disjoint (no Unicode decimal digit
is whitespace, a colon or an equals sign), so the greedy matching of
`[:\s=]+` followed by `([\d.+-]+)` never backtracks. -/
theorem numChar_not_sepChar (c : Char) (h : isNumChar c = true) : isSepChar c = false := by
  have h2 : (digitBase? c.toNat).isSome = true ∨ c.toNat = 46 ∨ c.toNat = 43 ∨
      c.toNat = 45 := by
    simpa [isNumChar, isDigitChar, or_assoc] using h
  simp only [isSepChar, isSpaceChar, Bool.or_eq_false_iff, decide_eq_false_iff_not,
    spaceCodes, List.mem_cons, List.not_mem_nil, or_false]
  have hbound : 43 ≤ c.toNat ∧ c.toNat ≤ 57 ∨
      ∃ z ∈ digitZeroCodes, z ≤ c.toNat ∧ c.toNat ≤ z + 9 := by
    rcases h2 with hd | hm | hm | hm
    · cases hzq : digitBase? c.toNat with
      | none => rw [hzq] at hd; exact absurd hd (by simp)
      | some z =>
        refine Or.inr ⟨z, List.mem_of_find?_eq_some hzq, ?_⟩
        have hzp := List.find?_some hzq
        simpa using hzp
    · exact Or.inl (by omega)
    · exact Or.inl (by omega)
    · exact Or.inl (by omega)
  rcases hbound with hb | ⟨z, hzmem, hzb⟩
  · omega
  · simp only [digitZeroCodes, List.mem_cons, List.not_mem_nil, or_false] at hzmem
    omega

/-! ## Supporting lemmas: line splitting and chunk invariance -/

/-- One-step equation for `splitNL`. -/
theorem splitNL_cons (c : Char) (cs : List Char) :
    splitNL (c :: cs) =
      if c = '\n' then ([] :: (splitNL cs).1, (splitNL cs).2)
      else consLine c (splitNL cs) := rfl

/-- Splitting a concatenation: the complete lines of `a ++ b` are the
complete lines of `a` followed by the complete lines of `a`'s trailing
fragment prepended to `b`, with the same final fragment — the buffer
discipline of the parser. -/
theorem splitNL_append (a b : List Char) :
    splitNL (a ++ b) =
      ((splitNL a).1 ++ (splitNL ((splitNL a).2 ++ b)).1,
        (splitNL ((splitNL a).2 ++ b)).2) := by
  induction a with
  | nil => simp [splitNL]
  | cons c cs ih =>
    rw [List.cons_append, splitNL_cons, splitNL_cons, ih]
    by_cases hc : c = '\n'
    · subst hc
      simp
    · simp only [if_neg hc]
      rcases hA : splitNL cs with ⟨l1, r1⟩
      cases l1 <;> simp [splitNL_cons, hc, consLine]

/-- `splitNL` is exactly `split("\n")`: the complete lines followed by
the kept fragment are the segments of the library's `List.splitOn`,
certifying the split model against Python's `str.split`. -/
theorem splitNL_eq_splitOn (l : List Char) :
    (splitNL l).1 ++ [(splitNL l).2] = l.splitOn '\n' := by
  show _ = l.splitOnP (· == '\n')
  induction l with
  | nil => rfl
  | cons c cs ih =>
    rw [splitNL_cons, List.splitOnP_cons]
    by_cases hc : c = '\n'
    · subst hc
      rw [if_pos rfl, if_pos (by simp), List.cons_append, ih]
    · rw [if_neg hc, if_neg (by simp [hc]), ← ih]
      rcases h : splitNL cs with ⟨ls, r⟩
      cases ls <;> simp [consLine]

/-- Extraction on the empty line always fails (every tag is
nonempty). -/
theorem extractValue_nil (ch : Channel) : extractValue ch [] = none := by
  cases ch <;> rfl

/-- `ChannelValues.empty` holds no value. -/
theorem empty_get (ch : Channel) : ChannelValues.empty.get ch = none := by
  cases ch <;> rfl

/-- Equality of `ChannelValues` follows from equality at each
channel. -/
theorem ChannelValues.ext_get {x y : ChannelValues} (h : ∀ ch, x.get ch = y.get ch) :
    x = y := by
  obtain ⟨a1, a2, a3⟩ := x
  obtain ⟨b1, b2, b3⟩ := y
  have h1 := h .ct_clamp
  have h2 := h .hall1
  have h3 := h .hall2
  simp only [ChannelValues.get] at h1 h2 h3
  rw [h1, h2, h3]

/-- Processing one line overwrites exactly the channels whose
extraction succeeds on the stripped line. -/
theorem processLine_get (r : ChannelValues) (line : List Char) (ch : Channel) :
    (processLine r line).get ch = (extractValue ch (stripChars line)).or (r.get ch) := by
  by_cases hnil : stripChars line = []
  · simp [processLine, hnil, extractValue_nil]
  · simp only [processLine, if_neg hnil]
    rcases h1 : extractValue .ct_clamp (stripChars line) with _ | v1 <;>
      rcases h2 : extractValue .hall1 (stripChars line) with _ | v2 <;>
        rcases h3 : extractValue .hall2 (stripChars line) with _ | v3 <;>
          cases ch <;>
            simp_all [ChannelValues.get]

/-- Folding the line processor from an arbitrary start is folding it
from the empty result, with the start as fallback per channel. -/
theorem foldl_processLine_get (lines : List (List Char)) (r : ChannelValues)
    (ch : Channel) :
    (lines.foldl processLine r).get ch =
      ((lines.foldl processLine ChannelValues.empty).get ch).or (r.get ch) := by
  induction lines generalizing r with
  | nil => simp [empty_get]
  | cons l ls ih =>
    simp only [List.foldl_cons]
    rw [ih (processLine r l), ih (processLine ChannelValues.empty l),
      processLine_get, processLine_get, empty_get, Option.or_none, Option.or_assoc]

/-- The merged pending value of a channel is the parsed value when
present, else the previous pending value. -/
theorem merge_pending_get (pend parsed : ChannelValues) (ch : Channel) :
    (merge_pending pend parsed).get ch = (parsed.get ch).or (pend.get ch) := by
  obtain ⟨pc, p1, p2⟩ := parsed
  cases ch <;> cases pc <;> cases p1 <;> cases p2 <;> rfl

/-- Feeding the text `a ++ b` in one call leaves the same buffer as
feeding `a` then `b`. -/
theorem parseText_state_append (p : DataParser) (a b : List Char) :
    (p.parseText (a ++ b)).2 = ((p.parseText a).2.parseText b).2 := by
  simp only [DataParser.parseText, ← List.append_assoc]
  rw [splitNL_append (p.buffer ++ a) b]

/-- Feeding the text `a ++ b` in one call produces the extraction
events of feeding `a` and then feeding `b` to the resulting parser
state. -/
theorem parseEventsText_append (p : DataParser) (a b : List Char) :
    p.parseEventsText (a ++ b) = p.parseEventsText a ++ (p.parseText a).2.parseEventsText b := by
  simp only [DataParser.parseEventsText, DataParser.parseText, ← List.append_assoc]
  rw [splitNL_append (p.buffer ++ a) b]
  simp [List.flatten_append]

/-- Per channel, the dict returned by feeding the text `a ++ b` holds
the value of the second call when it reports one, else the first
call's value. -/
theorem parseText_result_get_append (p : DataParser) (a b : List Char) (ch : Channel) :
    (p.parseText (a ++ b)).1.get ch =
      (((p.parseText a).2.parseText b).1.get ch).or ((p.parseText a).1.get ch) := by
  simp only [DataParser.parseText, ← List.append_assoc]
  rw [splitNL_append (p.buffer ++ a) b]
  simp only [List.foldl_append]
  rw [foldl_processLine_get]

/-- Chunk invariance at the text level: feeding decoded text chunks
one call at a time equals feeding the concatenated text in one call.
This is unconditional — the buffer keeps any partial line, so only
the byte-to-text decode can distinguish a split stream. -/
theorem parser_text_chunking (tchunks : List (List Char)) (p : DataParser)
    (pend : ChannelValues) (hne : tchunks ≠ []) :
    feedEventsText p tchunks = p.parseEventsText tchunks.flatten ∧
    feedStateText p tchunks = (p.parseText tchunks.flatten).2 ∧
    feedPendingText pend p tchunks = merge_pending pend (p.parseText tchunks.flatten).1 := by
  induction tchunks generalizing p pend with
  | nil => exact absurd rfl hne
  | cons t ts ih =>
    cases ts with
    | nil =>
      refine ⟨?_, ?_, ?_⟩ <;> simp [feedEventsText, feedStateText, feedPendingText]
    | cons t2 ts2 =>
      obtain ⟨ihe, ihs, ihp⟩ :=
        ih (p.parseText t).2 (merge_pending pend (p.parseText t).1) (by simp)
      refine ⟨?_, ?_, ?_⟩
      · show p.parseEventsText t ++ feedEventsText (p.parseText t).2 (t2 :: ts2) = _
        conv_rhs => rw [List.flatten_cons, parseEventsText_append]
        rw [ihe]
      · show feedStateText (p.parseText t).2 (t2 :: ts2) = _
        conv_rhs => rw [List.flatten_cons, parseText_state_append]
        exact ihs
      · show feedPendingText (merge_pending pend (p.parseText t).1) (p.parseText t).2
          (t2 :: ts2) = _
        rw [ihp]
        conv_rhs => rw [List.flatten_cons]
        refine ChannelValues.ext_get ?_
        intro ch
        simp only [merge_pending_get, parseText_result_get_append, Option.or_assoc]

/-- Feeding byte chunks is feeding their individual decodes: each
`parse` call decodes its own chunk. -/
theorem feed_eq_feedText (chunks : List (List Nat)) (p : DataParser)
    (pend : ChannelValues) :
    feedEvents p chunks = feedEventsText p (chunks.map decodeReplace) ∧
    feedState p chunks = feedStateText p (chunks.map decodeReplace) ∧
    feedPending pend p chunks = feedPendingText pend p (chunks.map decodeReplace) := by
  induction chunks generalizing p pend with
  | nil => exact ⟨rfl, rfl, rfl⟩
  | cons d ds ih =>
    obtain ⟨ihe, ihs, ihp⟩ := ih (p.parse d).2 (merge_pending pend (p.parse d).1)
    exact ⟨congrArg (fun x => p.parseEvents d ++ x) ihe, ihs, ihp⟩

/-! ## Supporting lemmas: token matching -/

/-- `takeWhile` passes over a prefix that wholly satisfies the
predicate. -/
theorem takeWhile_append_of_all (p : Char → Bool) (l1 l2 : List Char)
    (h : l1.all p = true) : (l1 ++ l2).takeWhile p = l1 ++ l2.takeWhile p := by
  induction l1 with
  | nil => simp
  | cons c cs ih =>
    simp only [List.all_cons, Bool.and_eq_true] at h
    simp [List.takeWhile_cons, h.1, ih h.2]

/-- `dropWhile` drops a prefix that wholly satisfies the predicate. -/
theorem dropWhile_append_of_all (p : Char → Bool) (l1 l2 : List Char)
    (h : l1.all p = true) : (l1 ++ l2).dropWhile p = l2.dropWhile p := by
  induction l1 with
  | nil => simp
  | cons c cs ih =>
    simp only [List.all_cons, Bool.and_eq_true] at h
    simp [List.dropWhile_cons, h.1, ih h.2]

/-- `takeWhile` is empty when the head refuses the predicate. -/
theorem takeWhile_eq_nil_of_head (p : Char → Bool) (l : List Char)
    (h : ∀ c, l.head? = some c → p c = false) : l.takeWhile p = [] := by
  cases l with
  | nil => rfl
  | cons c cs => simp [List.takeWhile_cons, h c rfl]

/-- `dropWhile` is the identity when the head refuses the predicate. -/
theorem dropWhile_eq_self_of_head (p : Char → Bool) (l : List Char)
    (h : ∀ c, l.head? = some c → p c = false) : l.dropWhile p = l := by
  cases l with
  | nil => rfl
  | cons c cs => simp [List.dropWhile_cons, h c rfl]

/-- The pattern matches at a position where the literal tag is
followed by a nonempty separator run and then a nonempty number-class
run; the captured group is that number run. -/
theorem matchAt_token (tag seps num rest : List Char)
    (hseps : seps ≠ []) (hsepsall : seps.all isSepChar = true)
    (hnum : num ≠ []) (hnumall : num.all isNumChar = true)
    (hrest : ∀ c, rest.head? = some c → isNumChar c = false) :
    matchAt tag (tag ++ (seps ++ (num ++ rest))) = some num := by
  have hnumhead : ∀ c, (num ++ rest).head? = some c → isSepChar c = false := by
    intro c hc
    cases num with
    | nil => exact absurd rfl hnum
    | cons n ns =>
      simp only [List.cons_append, List.head?_cons, Option.some.injEq] at hc
      subst hc
      simp only [List.all_cons, Bool.and_eq_true] at hnumall
      exact numChar_not_sepChar _ hnumall.1
  have hresthead : ∀ c, rest.head? = some c → isNumChar c = false := hrest
  unfold matchAt
  rw [if_pos (List.isPrefixOf_iff_prefix.mpr (List.prefix_append _ _)), List.drop_left]
  rw [takeWhile_append_of_all isSepChar seps (num ++ rest) hsepsall,
    takeWhile_eq_nil_of_head isSepChar (num ++ rest) hnumhead, List.append_nil,
    if_neg hseps]
  rw [dropWhile_append_of_all isSepChar seps (num ++ rest) hsepsall,
    dropWhile_eq_self_of_head isSepChar (num ++ rest) hnumhead]
  rw [takeWhile_append_of_all isNumChar num rest hnumall,
    takeWhile_eq_nil_of_head isNumChar rest hresthead, List.append_nil,
    if_neg hnum]

/-- `re.search` succeeds immediately when the pattern matches at the
start of the string. -/
theorem searchTag_here (tag s g : List Char) (h : matchAt tag s = some g) :
    searchTag tag s = some g := by
  cases s with
  | nil => simpa [searchTag] using h
  | cons c cs => simp [searchTag, h]

/-- `parseDecimal` rejects the empty group. -/
theorem parseDecimal_nil : parseDecimal [] = none := rfl

/-! ## Claim theorems (part 2: the parser) -/

/-- **C1 counterexample**: the program is not chunk-invariant for
every split the claim's proviso permits.  The byte sequence
`CT_A C2 A0 35 0A` (`nbspWhole`) fed whole decodes the bytes `C2 A0`
to the no-break space U+00A0, which the Unicode `\s` separator class
matches, and extracts `(ct_clamp, 5)`; split between those two bytes
(`nbspChunks`) — a mid-line split that does not touch the numeric
token's digits — each call decodes its truncated fragment to U+FFFD,
the completed line becomes `CT_A` followed by two replacement
characters and `5`, and nothing at all is extracted. -/
theorem parser_chunking_cex :
    nbspChunks.flatten = nbspWhole ∧
    DataParser.parseEvents ⟨[]⟩ nbspWhole = [(Channel.ct_clamp, mkRat 5 1)] ∧
    feedEvents ⟨[]⟩ nbspChunks = [] ∧
    feedPending ChannelValues.empty ⟨[]⟩ nbspChunks ≠
      merge_pending ChannelValues.empty (DataParser.parse ⟨[]⟩ nbspWhole).1 :=
  ⟨by decide, by decide, by decide, by decide⟩

/-- **C1 (amended)**: feeding any nonempty list of chunks to the
parser one call at a time is indistinguishable from feeding their
concatenation in one call — the accumulated extraction events agree,
the final partial-line buffer agrees, and the pending values obtained
by merging each call's returned dict agree with merging the single
call's dict — provided no split falls inside the bytes of a
multi-byte UTF-8 character: each call decodes its own chunk, so the
per-chunk decodes must compose to the whole sequence's decode.  Under
that proviso no condition on numeric tokens is needed: a fragment of
a line, including a fragment of a numeric token, stays in the buffer
until its newline arrives. -/
theorem parser_chunking_invariant (chunks : List (List Nat)) (p : DataParser)
    (pend : ChannelValues) (hne : chunks ≠ [])
    (hdec : decodeReplace chunks.flatten = (chunks.map decodeReplace).flatten) :
    feedEvents p chunks = p.parseEvents chunks.flatten ∧
    feedState p chunks = (p.parse chunks.flatten).2 ∧
    feedPending pend p chunks = merge_pending pend (p.parse chunks.flatten).1 := by
  have hne2 : chunks.map decodeReplace ≠ [] := by
    intro h
    exact hne (List.map_eq_nil_iff.mp h)
  obtain ⟨he, hs, hp⟩ := parser_text_chunking (chunks.map decodeReplace) p pend hne2
  obtain ⟨be, bs, bp⟩ := feed_eq_feedText chunks p pend
  refine ⟨?_, ?_, ?_⟩
  · rw [be, he]
    show _ = p.parseEventsText (decodeReplace chunks.flatten)
    rw [hdec]
  · rw [bs, hs]
    show _ = (p.parseText (decodeReplace chunks.flatten)).2
    rw [hdec]
  · rw [bp, hp]
    show _ = merge_pending pend (p.parseText (decodeReplace chunks.flatten)).1
    rw [hdec]

/-- Witness for `parser_chunking_invariant` at the spec's scenario
split, where the `HALL2_A` tag is cut across the two deliveries (all
bytes ASCII, so the decode-composition proviso holds by
computation). -/
theorem parser_chunking_invariant_check :
    (scenarioChunks ≠ [] ∧
     decodeReplace scenarioChunks.flatten = (scenarioChunks.map decodeReplace).flatten) ∧
    (feedEvents ⟨[]⟩ scenarioChunks = DataParser.parseEvents ⟨[]⟩ scenarioChunks.flatten ∧
     feedState ⟨[]⟩ scenarioChunks = (DataParser.parse ⟨[]⟩ scenarioChunks.flatten).2 ∧
     feedPending ⟨none, none, none⟩ ⟨[]⟩ scenarioChunks =
       merge_pending ⟨none, none, none⟩ (DataParser.parse ⟨[]⟩ scenarioChunks.flatten).1) :=
  ⟨⟨by unfold scenarioChunks; exact List.cons_ne_nil _ _, by decide⟩,
   parser_chunking_invariant scenarioChunks ⟨[]⟩ ⟨none, none, none⟩
     (by unfold scenarioChunks; exact List.cons_ne_nil _ _) (by decide)⟩

/-- **C7 counterexample**: the claim that a tag immediately followed by
the number, with no separator at all, still yields the value is false
on the code: the pattern `CT_A[:\s=]+(…)` demands at least one
separator character, so the line `CT_A1.5` produces no `ct_clamp`
value (neither at line level nor through a full `parse` call). -/
theorem token_requires_separator_cex :
    extractValue .ct_clamp "CT_A1.5".toList = none ∧
    ((DataParser.parse ⟨[]⟩ ("CT_A1.5\n".toList.map Char.toNat)).1.ct_clamp = none) := by
  constructor <;> decide

/-- **C7 (amended)**: a channel token is the channel tag followed by a
*required* separator run — one or more colon, equals or whitespace
characters — and a signed decimal number: whenever a complete line has
this shape at the tag (with the number run ending the token), the
channel's value is extracted; e.g. a full parse of `HALL2_A=7\n`
yields `hall2 = 7`.  (With no separator at all the pattern does not
match; see the counterexample.) -/
theorem token_extraction (ch : Channel) (seps num rest : List Char) (q : ℚ)
    (hseps : seps ≠ []) (hsepsall : seps.all isSepChar = true)
    (hnumall : num.all isNumChar = true) (hq : parseDecimal num = some q)
    (hrest : ∀ c, rest.head? = some c → isNumChar c = false) :
    extractValue ch (ch.tag ++ (seps ++ (num ++ rest))) = some q ∧
    ((DataParser.parse ⟨[]⟩ ("HALL2_A=7\n".toList.map Char.toNat)).1.hall2 =
      some (mkRat 7 1)) := by
  have hnum : num ≠ [] := by
    intro h
    rw [h, parseDecimal_nil] at hq
    exact Option.noConfusion hq
  constructor
  · unfold extractValue
    rw [searchTag_here ch.tag _ num
      (matchAt_token ch.tag seps num rest hseps hsepsall hnum hnumall hrest)]
    exact hq
  · decide

/-- Witness for `token_extraction`: `CT_A:1.5` extracts `3/2` for the
`ct_clamp` channel. -/
theorem token_extraction_check :
    (([':'] : List Char) ≠ [] ∧ ([':'] : List Char).all isSepChar = true ∧
     "1.5".toList.all isNumChar = true ∧
     parseDecimal "1.5".toList = some (mkRat 3 2)) ∧
    extractValue .ct_clamp (Channel.tag .ct_clamp ++ ([':'] ++ ("1.5".toList ++ []))) =
      some (mkRat 3 2) :=
  ⟨⟨by decide, by decide, by decide, by decide⟩,
   (token_extraction .ct_clamp [':'] "1.5".toList [] (mkRat 3 2) (by decide) (by decide)
     (by decide) (by decide) (fun c hc => Option.noConfusion hc)).1⟩

/-- **C8**: the parser's feed never raises.  Invalid bytes decode to
the replacement character U+FFFD instead of failing; a line on which
no channel extraction succeeds (no pattern match, or a captured group
that fails numeric conversion) leaves the running result untouched,
so the remaining lines of the same call are still processed; and a
full call on a byte string containing an invalid byte `0xFF`, a token
whose group `1.2.3` fails `float`, and a good `HALL1_A:2.5` token
returns exactly the good value and an empty buffer. -/
theorem parser_total_discard :
    (∀ b : Nat, 128 ≤ b → decodeReplace [b] = [Char.ofNat 0xFFFD]) ∧
    (∀ (r : ChannelValues) (line : List Char),
      (∀ ch : Channel, extractValue ch (stripChars line) = none) →
        processLine r line = r) ∧
    ((DataParser.parse ⟨[]⟩
        ([255] ++ "CT_A:1.2.3\nHALL1_A:2.5\n".toList.map Char.toNat)).1 =
      ⟨none, some (mkRat 5 2), none⟩) ∧
    ((DataParser.parse ⟨[]⟩
        ([255] ++ "CT_A:1.2.3\nHALL1_A:2.5\n".toList.map Char.toNat)).2 = ⟨[]⟩) := by
  refine ⟨?_, ?_, by decide, by decide⟩
  · intro b hb
    show decodeReplace [b] = _
    unfold decodeReplace
    rw [if_neg (by omega)]
    rfl
  · intro r line h
    by_cases hnil : stripChars line = []
    · simp [processLine, hnil]
    · simp only [processLine, if_neg hnil, h Channel.ct_clamp, h Channel.hall1,
        h Channel.hall2]

/-- Witness for `parser_total_discard`: the lone byte `200` decodes to
the replacement character, and a line matching no pattern leaves the
result unchanged. -/
theorem parser_total_discard_check :
    decodeReplace [200] = [Char.ofNat 0xFFFD] ∧
    processLine ⟨some 1, none, none⟩ "noise line".toList = ⟨some 1, none, none⟩ :=
  ⟨parser_total_discard.1 200 (by norm_num),
   parser_total_discard.2.1 ⟨some 1, none, none⟩ "noise line".toList
     (by intro ch; cases ch <;> decide)⟩


/-- `_disconnect_silent` is insensitive to teardown errors: whatever
`stop_notify` and `disconnect` do, the client reference ends up
cleared and nothing is emitted. -/
theorem disconnect_silent_eq (env : BleEnv) (st : BleState) :
    BleWorker.disconnect_silent env st =
      match st.client with
      | none => st
      | some _ => ⟨none⟩ := by
  obtain ⟨c⟩ := st
  cases c with
  | none => rfl
  | some a =>
    simp only [BleWorker.disconnect_silent, tryStopNotify, tryDisconnect]
    cases env.stopNotifyRaises <;> cases env.disconnectRaises <;> rfl

/-- Appending to a nonempty-capacity deque leaves the new element at
the right end. -/
theorem getLast?_dequeAppend (cap : Nat) (hcap : 1 ≤ cap) (l : List DataSample)
    (a : DataSample) : (dequeAppend cap l a).getLast? = some a := by
  unfold dequeAppend
  rw [List.getLast?_drop]
  simp only [List.length_append, List.length_singleton]
  rw [if_neg (by omega), List.getLast?_concat]

/-- Folding deque appends from the empty deque keeps exactly the last
`cap` elements, in order. -/
theorem foldl_dequeAppend_eq_drop (cap : Nat) (hcap : 1 ≤ cap) (l : List DataSample) :
    l.foldl (dequeAppend cap) [] = l.drop (l.length - cap) := by
  induction l using List.reverseRecOn with
  | nil => simp
  | append_singleton l a ih =>
    rw [List.foldl_concat, ih]
    rcases le_or_lt (l.length + 1) cap with hle | hlt
    · have e1 : l.length - cap = 0 := by omega
      have e2 : (l ++ [a]).length - cap = 0 := by
        simp only [List.length_append, List.length_singleton]
        omega
      rw [e1, List.drop_zero, e2, List.drop_zero]
      unfold dequeAppend
      rw [e2, List.drop_zero]
    · have e3 : (l.drop (l.length - cap) ++ [a]).length - cap = 1 := by
        simp only [List.length_append, List.length_drop, List.length_singleton]
        omega
      have e4 : (l ++ [a]).length - cap = l.length - cap + 1 := by
        simp only [List.length_append, List.length_singleton]
        omega
      unfold dequeAppend
      rw [e3, e4, List.drop_append_eq_append_drop, List.drop_append_eq_append_drop,
        List.drop_drop, List.length_drop]
      have e5 : 1 - (l.length - (l.length - cap)) = 0 := by omega
      have e6 : l.length - cap + 1 - l.length = 0 := by omega
      rw [e5, e6]

/-! ## Claim theorems (part 1) -/

/-- **C2** (code slip, evaluated): when `client.connect()` succeeds but
the NUS-service check or the notification subscribe fails,
`_connect_and_post` emits the `error` event with its human-readable
cause and then `connected False` — but the teardown in the except
block is a no-op, because `self._client` is only assigned after full
success, so the freshly established link is left open
(`newLinkOpen = true`) instead of being torn down as the claim states.
When `client.connect()` itself fails no link was opened, the same two
events are emitted, and on success `status` then `connected True` are
emitted.  Teardown errors never change any outcome (they are
suppressed). -/
theorem connect_failure_behavior :
    (BleWorker.connect_and_post ⟨true, true, false, true, false, false⟩ ⟨none⟩ "AA:BB" =
      { events := [BleEvent.error ("Connect failed: Device missing NUS service " ++
                     NUS_SERVICE_UUID),
                   BleEvent.connected false],
        client := none, newLinkOpen := true }) ∧
    (BleWorker.connect_and_post ⟨true, true, true, false, false, false⟩ ⟨some "OLD"⟩ "AA:BB" =
      { events := [BleEvent.error ("Connect failed: " ++ subscribeFailMsg),
                   BleEvent.connected false],
        client := none, newLinkOpen := true }) ∧
    (BleWorker.connect_and_post ⟨false, true, true, true, false, false⟩ ⟨none⟩ "AA:BB" =
      { events := [BleEvent.error "Connect failed: connect() returned false",
                   BleEvent.connected false],
        client := none, newLinkOpen := false }) ∧
    (BleWorker.connect_and_post ⟨true, true, true, true, false, false⟩ ⟨some "OLD"⟩ "AA:BB" =
      { events := [BleEvent.status "Connected to AA:BB", BleEvent.connected true],
        client := some "AA:BB", newLinkOpen := false }) ∧
    (∀ (env : BleEnv) (st : BleState) (a : String),
      BleWorker.connect_and_post env st a =
        BleWorker.connect_and_post
          { env with stopNotifyRaises := false, disconnectRaises := false } st a) := by
  refine ⟨by decide, by decide, by decide, by decide, ?_⟩
  intro env st a
  simp only [BleWorker.connect_and_post, disconnect_silent_eq]

/-- **C3 counterexample**: the claim fails on the code.  First input:
two named devices with reported strengths `0` and `-50`; the claim
orders `0` above `-50`, but the key `-(x.rssi or -999)` coalesces the
falsy strength `0` to the sentinel, so the code puts it last.  Second
input: two named devices with missing strengths tie on the key, so the
output is not *strictly* descending. -/
theorem scan_sort_claim_cex :
    ¬ (scanSorted [⟨"Alpha", "a1", some 0⟩, ⟨"Beta", "a2", some (-50)⟩]).Pairwise
        claimScanRel ∧
    ¬ (scanSorted [⟨"N1", "a3", none⟩, ⟨"N2", "a4", none⟩]).Pairwise claimScanRel := by
  constructor <;> decide

/-- **C3 (amended)**: the delivered device list is sorted by the key
`(name == "<unknown>", -(rssi or -999))`: all named devices precede
all unnamed ones, and within each group the effective signal strength
— the reported strength, with a missing or zero strength coalesced to
the weakest sentinel `-999` — is non-increasing; the output is a
permutation of the input; and the spec's example sorts to
`[Alpha(-40), Beta(-60), unnamed(-30)]`. -/
theorem scan_sort_ordering (l : List FoundDevice) :
    (scanSorted l).Pairwise keyLe ∧ (scanSorted l).Perm l ∧
    scanSorted [⟨"Alpha", "a1", some (-40)⟩, ⟨"<unknown>", "a2", some (-30)⟩,
        ⟨"Beta", "a3", some (-60)⟩] =
      [⟨"Alpha", "a1", some (-40)⟩, ⟨"Beta", "a3", some (-60)⟩,
        ⟨"<unknown>", "a2", some (-30)⟩] :=
  ⟨List.sorted_insertionSort keyLe l, List.perm_insertionSort keyLe l, by decide⟩

/-- **C10**: a reported signal strength of exactly `0` is falsy in
Python, so `x.rssi or -999` coalesces it — like a missing strength —
to the sentinel `-999`, and such a device gets the same sort key as
one with no strength at all, ordering as the weakest in its group:
with named devices `P(rssi=0)` and `Q(rssi=-50)`, `Q` sorts first. -/
theorem zero_rssi_sorts_weakest (nm ad : String) :
    sortKey ⟨nm, ad, some 0⟩ = sortKey ⟨nm, ad, none⟩ ∧
    rssiOr (some 0) = -999 ∧ rssiOr none = -999 ∧
    scanSorted [⟨"P", "p1", some 0⟩, ⟨"Q", "p2", some (-50)⟩] =
      [⟨"Q", "p2", some (-50)⟩, ⟨"P", "p1", some 0⟩] :=
  ⟨rfl, rfl, rfl, by decide⟩

/-- **C9**: a state-button press while `is_logging` is false returns
the state untouched — current state label, state-change history and
every other field unchanged — and reports the request to the caller
as explicitly ignored via the log line, not silently and not as an
error. -/
theorem state_change_ignored (st : LoggerState) (now : ℚ) (s : String)
    (h : st.is_logging = false) :
    (LaundryIQLogger.on_state_button st now s).1 = st ∧
    (LaundryIQLogger.on_state_button st now s).2 =
      ["State change ignored: Not logging.\n"] := by
  simp [LaundryIQLogger.on_state_button, h]

/-- Witness for `state_change_ignored` at a concrete idle state. -/
theorem state_change_ignored_check :
    idleState.is_logging = false ∧
    (LaundryIQLogger.on_state_button idleState 5 "Wash").1 = idleState ∧
    (LaundryIQLogger.on_state_button idleState 5 "Wash").2 =
      ["State change ignored: Not logging.\n"] :=
  ⟨rfl, (state_change_ignored idleState 5 "Wash" rfl).1,
    (state_change_ignored idleState 5 "Wash" rfl).2⟩

/-- **C4**: at emission the sample appended to the history carries each
present pending value multiplied by that channel's calibration factor
as of emission time (absent values stay absent), and a later
calibration update rewrites only `calibration_factors` — the stored
history, hence every already-emitted sample, is left unchanged. -/
theorem calibration_at_emission (st : LoggerState) (ts t0 : ℚ)
    (h : st.logging_start_time = some t0) (h0 : ¬ t0 = 0) :
    (LaundryIQLogger.process_sample st ts).data_buffer.getLast? =
      some { timestamp := ts
             ct_clamp := Option.map (fun v => v * st.calibration_factors.ct_clamp)
               st.pending_data.ct_clamp
             hall1 := Option.map (fun v => v * st.calibration_factors.hall1)
               st.pending_data.hall1
             hall2 := Option.map (fun v => v * st.calibration_factors.hall2)
               st.pending_data.hall2
             state := st.current_state
             elapsed_time := ts - t0 } ∧
    (∀ (st2 : LoggerState) (c1 c2 c3 : Option ℚ),
      (LaundryIQLogger.update_calibration st2 c1 c2 c3).data_buffer = st2.data_buffer) := by
  constructor
  · simp only [LaundryIQLogger.process_sample, h, if_neg h0]
    exact getLast?_dequeAppend 10000 (by omega) _ _
  · intro st2 c1 c2 c3
    rfl

/-- Witness for `calibration_at_emission`: factor `2.0` applied to the
pending raw value `1.5` yields the emitted sample value `3.0`. -/
theorem calibration_at_emission_check :
    (logState.logging_start_time = some 1 ∧ ¬ (1 : ℚ) = 0) ∧
    (LaundryIQLogger.process_sample logState 2).data_buffer.getLast? =
      some { timestamp := 2, ct_clamp := some 3, hall1 := none, hall2 := none,
             state := "Wash", elapsed_time := 1 } ∧
    (∀ (st2 : LoggerState) (c1 c2 c3 : Option ℚ),
      (LaundryIQLogger.update_calibration st2 c1 c2 c3).data_buffer = st2.data_buffer) := by
  have h := calibration_at_emission logState 2 1 rfl (by norm_num)
  refine ⟨⟨rfl, by norm_num⟩, ?_, h.2⟩
  have h1 := h.1
  norm_num [logState, Option.map] at h1 ⊢
  exact h1

/-- **C5**: merging a parser result into the pending values never lets
an absent (`None`) parsed channel overwrite a known pending value,
while a present parsed value supersedes it; and emitting a sample
leaves `pending_data` entirely unchanged — no channel is ever cleared
back to absent by emission. -/
theorem merge_never_clears (pend parsed : ChannelValues) :
    (parsed.ct_clamp = none → (merge_pending pend parsed).ct_clamp = pend.ct_clamp) ∧
    (∀ v, parsed.ct_clamp = some v → (merge_pending pend parsed).ct_clamp = some v) ∧
    (parsed.hall1 = none → (merge_pending pend parsed).hall1 = pend.hall1) ∧
    (∀ v, parsed.hall1 = some v → (merge_pending pend parsed).hall1 = some v) ∧
    (parsed.hall2 = none → (merge_pending pend parsed).hall2 = pend.hall2) ∧
    (∀ v, parsed.hall2 = some v → (merge_pending pend parsed).hall2 = some v) ∧
    (∀ (st : LoggerState) (ts : ℚ),
      (LaundryIQLogger.process_sample st ts).pending_data = st.pending_data) := by
  obtain ⟨pc, p1, p2⟩ := parsed
  refine ⟨?_, ?_, ?_, ?_, ?_, ?_, ?_⟩
  · intro hv
    subst hv
    cases p1 <;> cases p2 <;> rfl
  · intro v hv
    subst hv
    cases p1 <;> cases p2 <;> rfl
  · intro hv
    subst hv
    cases pc <;> cases p2 <;> rfl
  · intro v hv
    subst hv
    cases pc <;> cases p2 <;> rfl
  · intro hv
    subst hv
    cases pc <;> cases p1 <;> rfl
  · intro v hv
    subst hv
    cases pc <;> cases p1 <;> rfl
  · intro st ts
    cases h : st.logging_start_time with
    | none => simp [LaundryIQLogger.process_sample, h]
    | some t0 =>
      by_cases h0 : t0 = 0 <;>
        simp [LaundryIQLogger.process_sample, h, h0]

/-- Witness for `merge_never_clears`: pending CT `7` with parsed CT
absent stays `7`; parsed hall1 `5` supersedes pending `4`; and a
sample emission keeps the pending values. -/
theorem merge_never_clears_check :
    (merge_pending ⟨some 7, some 4, none⟩ ⟨none, some 5, none⟩).ct_clamp = some 7 ∧
    (merge_pending ⟨some 7, some 4, none⟩ ⟨none, some 5, none⟩).hall1 = some 5 ∧
    (LaundryIQLogger.process_sample logState 2).pending_data = logState.pending_data := by
  have h := merge_never_clears ⟨some 7, some 4, none⟩ ⟨none, some 5, none⟩
  exact ⟨h.1 rfl, h.2.2.2.1 5 rfl, h.2.2.2.2.2.2 logState 2⟩

/-- **C6**: starting from the empty history, appending 10,001 samples
through the `deque(maxlen=10000)` leaves exactly 10,000 stored, they
are precisely the last 10,000 appended in their emission order (the
tail of the append sequence), and — when the samples are pairwise
distinct — the very first appended sample is absent. -/
theorem history_eviction (l : List DataSample) (h : l.length = 10001) :
    (l.foldl (dequeAppend 10000) []).length = 10000 ∧
    l.foldl (dequeAppend 10000) [] = l.tail ∧
    (∀ s, l.Nodup → l.head? = some s → s ∉ l.foldl (dequeAppend 10000) []) := by
  have key : l.foldl (dequeAppend 10000) [] = l.tail := by
    rw [foldl_dequeAppend_eq_drop 10000 (by omega) l, h]
    rw [show 10001 - 10000 = 1 from rfl]
    exact List.drop_one l
  refine ⟨by rw [key, List.length_tail, h], key, ?_⟩
  intro s hnd hs
  rw [key]
  cases l with
  | nil => simp at hs
  | cons a t =>
    simp only [List.head?_cons, Option.some.injEq] at hs
    subst hs
    simpa using (List.nodup_cons.mp hnd).1

/-- Witness for `history_eviction` at the concrete 10,001-sample
input. -/
theorem history_eviction_check :
    manySamples.length = 10001 ∧
    (manySamples.foldl (dequeAppend 10000) []).length = 10000 ∧
    manySamples.foldl (dequeAppend 10000) [] = manySamples.tail ∧
    mkSample 0 ∉ manySamples.foldl (dequeAppend 10000) [] := by
  have hlen : manySamples.length = 10001 := by
    unfold manySamples
    rw [List.length_map, List.length_range]
  have h := history_eviction manySamples hlen
  have hnd : manySamples.Nodup := by
    refine List.Nodup.map ?_ (List.nodup_range 10001)
    intro i j hij
    have : (i : ℚ) = (j : ℚ) := congrArg DataSample.timestamp hij
    exact_mod_cast this
  have hhead : manySamples.head? = some (mkSample 0) := by
    unfold manySamples
    rw [show (10001 : Nat) = 10000 + 1 from rfl, List.range_succ_eq_map,
      List.map_cons, List.head?_cons]
  exact ⟨hlen, h.1, h.2.1, h.2.2 (mkSample 0) hnd hhead⟩

end LIQ
